import Mathlib

/-!
Verification of the replay/telemetry streaming core of the
`f1-race-intelligence` backend.

Shallow embedding of:
* `app/services/replay_service.py` — `group_frames_by_driver`,
  `build_replay_frame`, `generate_replay_frames` (the streaming loop),
  `replay_session_websocket`;
* `app/services/f1_queries.py` — `get_telemetry_frames`;
* `app/routers/chat.py` (websocket section) — `replay_race`.

Python floats are modelled as exact rationals `ℚ`; nullable columns as
`Option`; a SQLAlchemy row as a structure carrying the joined driver code
(`frame.driver.code` in the source is a relationship access, embedded here
as the field `driver_code`).
-/

namespace F1Replay

/-- A row of the `telemetry_frames` table, as used by the replay service.
`driver_code` inlines the `frame.driver.code` relationship access of
`build_replay_frame`. -/
structure TelemetryFrame where
  session_id : Int
  driver_id : Int
  t_rel_sec : ℚ
  lap_number : Int
  x_norm : ℚ
  y_norm : ℚ
  speed_kph : Option ℚ
  driver_code : String
  deriving DecidableEq, Repr

/-- `CarPositionSchema` from `app/schemas/telemetry.py`. -/
structure CarPositionSchema where
  driver_code : String
  x : ℚ
  y : ℚ
  speed_kph : Option ℚ
  lap : Int
  deriving DecidableEq, Repr

/-- `ReplayFrameSchema` from `app/schemas/telemetry.py`. -/
structure ReplayFrameSchema where
  t : ℚ
  cars : List CarPositionSchema
  deriving DecidableEq, Repr

/-- One `driver_frames[frame.driver_id] = frame` update on a Python dict,
modelled as an insertion-ordered association list: updating an existing key
keeps its position, a new key is appended at the end (Python ≥ 3.7 dict
semantics). -/
def dictInsert (d : List (Int × TelemetryFrame)) (k : Int) (v : TelemetryFrame) :
    List (Int × TelemetryFrame) :=
  if d.any (fun p => p.1 == k) then
    d.map (fun p => if p.1 == k then (p.1, v) else p)
  else
    d ++ [(k, v)]

/-- `group_frames_by_driver` (replay_service.py lines 15-28): fold the
dict-update over the input frames in order. -/
def group_frames_by_driver (frames : List TelemetryFrame) :
    List (Int × TelemetryFrame) :=
  frames.foldl (fun d frame => dictInsert d frame.driver_id frame) []

/-- The `CarPositionSchema(...)` construction in the loop body of
`build_replay_frame` (replay_service.py lines 47-56). -/
def carOf (frame : TelemetryFrame) : CarPositionSchema :=
  { driver_code := frame.driver_code
    x := frame.x_norm
    y := frame.y_norm
    speed_kph := frame.speed_kph
    lap := frame.lap_number }

/-- `build_replay_frame` (replay_service.py lines 31-58): group by driver,
then emit one `CarPositionSchema` per dict entry in dict (insertion) order. -/
def build_replay_frame (current_time : ℚ) (frames : List TelemetryFrame) :
    ReplayFrameSchema :=
  { t := current_time
    cars := (group_frames_by_driver frames).map (fun p => carOf p.2) }

/-- The inner cursor-advance loop of `generate_replay_frames`
(replay_service.py lines 110-116): starting from the cursor suffix of the
sorted sample list, consume samples until one with `t_rel_sec > window_end`
is reached (the `break`), collecting the consumed samples that satisfy
`t_rel_sec ≥ current_time`.  Returns `(window_frames, new cursor suffix)`. -/
def collectWindow (current_time window_end : ℚ) :
    List TelemetryFrame → List TelemetryFrame × List TelemetryFrame
  | [] => ([], [])
  | frame :: rest =>
    if frame.t_rel_sec > window_end then
      ([], frame :: rest)
    else
      let r := collectWindow current_time window_end rest
      (if frame.t_rel_sec ≥ current_time then frame :: r.1 else r.1, r.2)

theorem collectWindow_eq (current_time window_end : ℚ)
    (l : List TelemetryFrame) :
    collectWindow current_time window_end l =
      ((l.takeWhile (fun s => s.t_rel_sec ≤ window_end)).filter
          (fun s => current_time ≤ s.t_rel_sec),
        l.dropWhile (fun s => s.t_rel_sec ≤ window_end)) := by
  induction l with
  | nil => simp [collectWindow]
  | cons a l ih =>
    by_cases h : a.t_rel_sec > window_end
    · simp [collectWindow, h, List.takeWhile_cons, List.dropWhile_cons,
        not_le.mpr h]
    · push_neg at h
      by_cases h2 : current_time ≤ a.t_rel_sec <;>
        simp [collectWindow, not_lt.mpr h, h, ih, List.takeWhile_cons,
          List.dropWhile_cons, List.filter_cons, h2]

/-- Number of iterations the `while current_time <= max_time` loop of
`generate_replay_frames` still has to run from `current_time`
(replay_service.py line 104), for a positive `time_step`.  Used as the
termination measure of `replayLoop`. -/
def loopIterations (max_time time_step current_time : ℚ) : ℕ :=
  if current_time ≤ max_time then
    (⌊(max_time - current_time) / time_step⌋).toNat + 1
  else 0

theorem loopIterations_decreases (max_time time_step current_time : ℚ)
    (hstep : 0 < time_step) (h : current_time ≤ max_time) :
    loopIterations max_time time_step (current_time + time_step) <
      loopIterations max_time time_step current_time := by
  unfold loopIterations
  rw [if_pos h]
  by_cases h2 : current_time + time_step ≤ max_time
  · rw [if_pos h2]
    have h3 : (max_time - (current_time + time_step)) / time_step
        = (max_time - current_time) / time_step - 1 := by
      field_simp
      ring
    have h4 : (1 : ℤ) ≤ ⌊(max_time - current_time) / time_step⌋ := by
      apply Int.le_floor.mpr
      push_cast
      rw [le_div_iff₀ hstep]
      linarith
    have h5 : ⌊(max_time - (current_time + time_step)) / time_step⌋
        = ⌊(max_time - current_time) / time_step⌋ - 1 := by
      rw [h3]
      exact_mod_cast Int.floor_sub_int ((max_time - current_time) / time_step) 1
    rw [h5]
    omega
  · rw [if_neg h2]
    omega

/-- The `while current_time <= max_time` streaming loop of
`generate_replay_frames` (replay_service.py lines 104-125), for a positive
`time_step` (for `time_step ≤ 0` the Python loop never terminates; see
`generate_replay_frames_run`).  State: `current_time` and the cursor suffix
`frames` of the time-sorted sample list.  Each iteration collects the
window via `collectWindow` and yields `build_replay_frame` when the window
is nonempty; `asyncio.sleep` is a no-op for the emitted values. -/
def replayLoop (max_time time_step : ℚ) (hstep : 0 < time_step)
    (current_time : ℚ) (frames : List TelemetryFrame) :
    List ReplayFrameSchema :=
  if h : current_time ≤ max_time then
    let w := collectWindow current_time (current_time + time_step) frames
    let rest := replayLoop max_time time_step hstep
      (current_time + time_step) w.2
    if w.1.isEmpty then rest else build_replay_frame current_time w.1 :: rest
  else []
termination_by loopIterations max_time time_step current_time
decreasing_by exact loopIterations_decreases _ _ _ hstep h

/-- Iteration trace of the streaming loop: the `(current_time,
window_frames)` pair of every iteration, including iterations whose window
is empty (which yield nothing).  Derived view of `replayLoop` used to state
window-level properties. -/
def replayWindows (max_time time_step : ℚ) (hstep : 0 < time_step)
    (current_time : ℚ) (frames : List TelemetryFrame) :
    List (ℚ × List TelemetryFrame) :=
  if h : current_time ≤ max_time then
    let w := collectWindow current_time (current_time + time_step) frames
    (current_time, w.1) ::
      replayWindows max_time time_step hstep (current_time + time_step) w.2
  else []
termination_by loopIterations max_time time_step current_time
decreasing_by exact loopIterations_decreases _ _ _ hstep h

theorem replayLoop_eq_filterMap (max_time time_step : ℚ) (hstep : 0 < time_step)
    (current_time : ℚ) (frames : List TelemetryFrame) :
    replayLoop max_time time_step hstep current_time frames =
      (replayWindows max_time time_step hstep current_time frames).filterMap
        (fun p => if p.2.isEmpty then none
                  else some (build_replay_frame p.1 p.2)) := by
  rw [replayLoop, replayWindows]
  by_cases h : current_time ≤ max_time
  · rw [dif_pos h, dif_pos h]
    by_cases he : (collectWindow current_time (current_time + time_step) frames).1 = [] <;>
      simp [he,
        replayLoop_eq_filterMap max_time time_step hstep (current_time + time_step)]
  · rw [dif_neg h, dif_neg h]
    simp
termination_by loopIterations max_time time_step current_time
decreasing_by all_goals exact loopIterations_decreases _ _ _ hstep h

/-- The `ORDER BY t_rel_sec, driver_id` of `get_telemetry_frames`
(f1_queries.py line 117), modelled as a stable sort by the lexicographic
key. -/
def orderByTimeDriver (rows : List TelemetryFrame) : List TelemetryFrame :=
  rows.insertionSort (fun a b =>
    a.t_rel_sec < b.t_rel_sec ∨
      (a.t_rel_sec = b.t_rel_sec ∧ a.driver_id ≤ b.driver_id))

/-- `get_telemetry_frames` (f1_queries.py lines 103-118): filter the
`telemetry_frames` table by `session_id`; the `if driver_ids:` guard uses
Python truthiness, so both `None` and the empty list skip the
`driver_id IN (...)` restriction; finally order by `(t_rel_sec,
driver_id)`. -/
def get_telemetry_frames (db : List TelemetryFrame) (session_id : Int)
    (driver_ids : Option (List Int)) : List TelemetryFrame :=
  let stmt := db.filter (fun f => f.session_id == session_id)
  let stmt :=
    match driver_ids with
    | none => stmt
    | some ids =>
      if ids.isEmpty then stmt
      else stmt.filter (fun f => ids.contains f.driver_id)
  orderByTimeDriver stmt

/-- `min(frame.t_rel_sec for frame in telemetry_frames)`
(replay_service.py line 91); only used on nonempty lists. -/
def minTime (l : List TelemetryFrame) : ℚ :=
  match l with
  | [] => 0
  | f :: fs => fs.foldl (fun m g => min m g.t_rel_sec) f.t_rel_sec

/-- `max(frame.t_rel_sec for frame in telemetry_frames)`
(replay_service.py line 92); only used on nonempty lists. -/
def maxTime (l : List TelemetryFrame) : ℚ :=
  match l with
  | [] => 0
  | f :: fs => fs.foldl (fun m g => max m g.t_rel_sec) f.t_rel_sec

/-- `telemetry_frames.sort(key=lambda f: f.t_rel_sec)`
(replay_service.py line 102): stable sort by `t_rel_sec`. -/
def sortByTime (l : List TelemetryFrame) : List TelemetryFrame :=
  l.insertionSort (fun a b => a.t_rel_sec ≤ b.t_rel_sec)

/-- How a run of the `generate_replay_frames` coroutine ends. -/
inductive ReplayOutcome where
  /-- The generator finishes normally, having yielded `frames` in order. -/
  | completed (frames : List ReplayFrameSchema) : ReplayOutcome
  /-- `time_step = 1.0 / fps` (replay_service.py line 97) raises
  `ZeroDivisionError`. -/
  | zeroDivisionError : ReplayOutcome
  /-- The `while current_time <= max_time` loop never exits. -/
  | nonterminating : ReplayOutcome
  deriving DecidableEq, Repr

/-- Observable effects of one run of `generate_replay_frames`. -/
structure ReplayRun where
  /-- Whether the telemetry store query (replay_service.py line 82) was
  issued during the run. -/
  store_queried : Bool
  /-- Number of samples returned by the store query. -/
  samples_loaded : ℕ
  outcome : ReplayOutcome
  deriving DecidableEq, Repr

/-- `generate_replay_frames` (replay_service.py lines 61-132) as a run
model.  Control flow follows the source: the store query at line 82 is
executed unconditionally, before anything looks at `fps`; an empty result
returns at line 86 with no frames; otherwise `time_step = 1.0 / fps` at
line 97 raises `ZeroDivisionError` when `fps = 0` (Python float division
by an `int` zero); when `fps < 0` the step is negative, so every iteration
has `window_end < current_time ≤ min_time ≤` every remaining sample's
`t_rel_sec`, the inner loop breaks immediately, nothing is yielded,
`current_time` decreases, and the guard `current_time <= max_time` stays
true forever — the loop never terminates; when `fps > 0` the sorted-loop
semantics is `replayLoop`. -/
def generate_replay_frames_run (db : List TelemetryFrame) (session_id : Int)
    (fps : Int) (driver_ids : Option (List Int)) : ReplayRun :=
  let telemetry_frames := get_telemetry_frames db session_id driver_ids
  if telemetry_frames.isEmpty then
    { store_queried := true, samples_loaded := 0,
      outcome := .completed [] }
  else if fps = 0 then
    { store_queried := true, samples_loaded := telemetry_frames.length,
      outcome := .zeroDivisionError }
  else if h : 0 < fps then
    { store_queried := true, samples_loaded := telemetry_frames.length,
      outcome := .completed (replayLoop (maxTime telemetry_frames)
        (1 / (fps : ℚ))
        (one_div_pos.mpr (by exact_mod_cast h))
        (minTime telemetry_frames)
        (sortByTime telemetry_frames)) }
  else
    { store_queried := true, samples_loaded := telemetry_frames.length,
      outcome := .nonterminating }

/-- Result of one `await websocket.send_json(...)` / `send_callback(...)`
call, seen from the streaming loop. -/
inductive SendResult where
  | ok : SendResult
  /-- The call raises `WebSocketDisconnect`. -/
  | disconnect : SendResult
  /-- The call raises some other exception with message `msg`. -/
  | raiseExc (msg : String) : SendResult
  deriving DecidableEq, Repr

/-- A JSON message delivered on the replay websocket. -/
inductive WsMessage where
  | frame (f : ReplayFrameSchema) : WsMessage
  /-- `{"status": "complete"}` -/
  | complete : WsMessage
  /-- `{"error": msg}` -/
  | error (msg : String) : WsMessage
  deriving DecidableEq, Repr

/-- The frame-sending loop of `replay_race` (chat.py websocket section,
lines 92-115, via `replay_session_websocket`): send each generated frame
in order through the sink; if every send succeeds the loop exits normally
and `{"status": "complete"}` is sent; a `WebSocketDisconnect` is caught
and nothing further is sent; any other exception is caught and
`{"error": msg}` is sent.  `sink i` is the result of the `i`-th frame
send; the terminal completion/error sends are modelled as succeeding. -/
def streamLoop (sink : ℕ → SendResult) :
    ℕ → List ReplayFrameSchema → List WsMessage
  | _, [] => [WsMessage.complete]
  | i, f :: fs =>
    match sink i with
    | .ok => WsMessage.frame f :: streamLoop sink (i + 1) fs
    | .disconnect => []
    | .raiseExc m => [WsMessage.error m]

/-- `replay_race` (chat.py websocket section): the full list of messages
the client receives for a generated frame list and a sink behaviour. -/
def replay_race (frames : List ReplayFrameSchema) (sink : ℕ → SendResult) :
    List WsMessage :=
  streamLoop sink 0 frames

theorem loopIterations_step (max_time time_step current_time : ℚ)
    (hstep : 0 < time_step) (h : current_time ≤ max_time) :
    loopIterations max_time time_step current_time =
      loopIterations max_time time_step (current_time + time_step) + 1 := by
  unfold loopIterations
  rw [if_pos h]
  by_cases h2 : current_time + time_step ≤ max_time
  · rw [if_pos h2]
    have h3 : (max_time - (current_time + time_step)) / time_step
        = (max_time - current_time) / time_step - 1 := by
      field_simp
      ring
    have h4 : (1 : ℤ) ≤ ⌊(max_time - current_time) / time_step⌋ := by
      apply Int.le_floor.mpr
      push_cast
      rw [le_div_iff₀ hstep]
      linarith
    have h5 : ⌊(max_time - (current_time + time_step)) / time_step⌋
        = ⌊(max_time - current_time) / time_step⌋ - 1 := by
      rw [h3]
      exact_mod_cast Int.floor_sub_int ((max_time - current_time) / time_step) 1
    rw [h5]
    omega
  · rw [if_neg h2]
    have h4 : ⌊(max_time - current_time) / time_step⌋ = 0 := by
      apply Int.floor_eq_zero_iff.mpr
      constructor
      · apply div_nonneg (by linarith) (le_of_lt hstep)
      · rw [div_lt_one hstep]
        push_cast
        linarith
    rw [h4]
    rfl

/-- Concrete telemetry rows used in witnesses and counterexamples. -/
def sampleA : TelemetryFrame :=
  { session_id := 1, driver_id := 1, t_rel_sec := 0, lap_number := 1,
    x_norm := 0, y_norm := 0, speed_kph := some 100, driver_code := "VER" }

/-- A second driver's row, one grid step (at `fps = 1`) after `sampleA`. -/
def sampleB : TelemetryFrame :=
  { session_id := 1, driver_id := 2, t_rel_sec := 1, lap_number := 1,
    x_norm := 1, y_norm := 1, speed_kph := none, driver_code := "HAM" }

/-- Same driver as `sampleB`, later in input order but earlier in time. -/
def sampleC : TelemetryFrame :=
  { session_id := 1, driver_id := 2, t_rel_sec := 0, lap_number := 1,
    x_norm := 2, y_norm := 3, speed_kph := some 250, driver_code := "HAM" }

/-- C9: passing `driver_ids = []` to the telemetry query applies no driver
restriction: `if driver_ids:` treats the empty list like `None`, so the
result is the full session sample set, not an empty one. -/
theorem get_telemetry_frames_empty_driver_ids (db : List TelemetryFrame)
    (session_id : Int) :
    get_telemetry_frames db session_id (some []) =
      get_telemetry_frames db session_id none := rfl

/-- C8: `build_replay_frame` is a deterministic pure function of
`current_time` and the window sample list: two runs on equal inputs
produce identical `ReplayFrameSchema` values. -/
theorem build_replay_frame_deterministic (t₁ t₂ : ℚ)
    (fs₁ fs₂ : List TelemetryFrame) (ht : t₁ = t₂) (hf : fs₁ = fs₂) :
    build_replay_frame t₁ fs₁ = build_replay_frame t₂ fs₂ := by
  rw [ht, hf]

theorem build_replay_frame_deterministic_witness :
    build_replay_frame 0 [sampleA] = build_replay_frame 0 [sampleA] :=
  build_replay_frame_deterministic 0 0 [sampleA] [sampleA] rfl rfl

/-- C2 counterexample: with one telemetry row and `fps = 0`, the run
issues the store query and loads the sample, then raises
`ZeroDivisionError` at `time_step = 1.0 / fps` — the request is not
rejected before the store query, samples are loaded, and a division by
zero does occur. -/
theorem fps_zero_not_rejected :
    (generate_replay_frames_run [sampleA] 1 0 none).store_queried = true ∧
      (generate_replay_frames_run [sampleA] 1 0 none).samples_loaded = 1 ∧
      (generate_replay_frames_run [sampleA] 1 0 none).outcome =
        ReplayOutcome.zeroDivisionError := by
  refine ⟨rfl, ?_, ?_⟩ <;> decide

/-- C2 amended: `generate_replay_frames` performs no fps validation — the
telemetry store query at line 82 is always issued first, whatever `fps`
is; if the session has at least one sample and `fps = 0`, the samples are
loaded and `time_step = 1.0 / fps` then raises `ZeroDivisionError` (after
the query, not before). -/
theorem fps_zero_queries_store_then_divides (db : List TelemetryFrame)
    (session_id : Int) (fps : Int) (driver_ids : Option (List Int)) :
    (generate_replay_frames_run db session_id fps driver_ids).store_queried
        = true ∧
      (get_telemetry_frames db session_id driver_ids ≠ [] → fps = 0 →
        (generate_replay_frames_run db session_id fps driver_ids).outcome =
            ReplayOutcome.zeroDivisionError ∧
          (generate_replay_frames_run db session_id fps driver_ids).samples_loaded
            = (get_telemetry_frames db session_id driver_ids).length) := by
  constructor
  · simp only [generate_replay_frames_run]
    split
    · rfl
    split
    · rfl
    split <;> rfl
  · intro hne hz
    simp only [generate_replay_frames_run]
    rw [if_neg (by simpa [List.isEmpty_iff] using hne), if_pos hz]
    exact ⟨rfl, rfl⟩

theorem fps_zero_queries_store_then_divides_witness :
    (generate_replay_frames_run [sampleA] 1 0 none).store_queried = true ∧
      (generate_replay_frames_run [sampleA] 1 0 none).outcome =
        ReplayOutcome.zeroDivisionError :=
  ⟨(fps_zero_queries_store_then_divides [sampleA] 1 0 none).1,
    ((fps_zero_queries_store_then_divides [sampleA] 1 0 none).2
      (by decide) rfl).1⟩

/-- C6: a session whose telemetry query returns zero samples yields a run
that completes normally with zero frames, and the websocket client
receives exactly the completion message, not an error. -/
theorem empty_session_completes (db : List TelemetryFrame) (session_id : Int)
    (fps : Int) (driver_ids : Option (List Int)) (sink : ℕ → SendResult)
    (h : get_telemetry_frames db session_id driver_ids = []) :
    (generate_replay_frames_run db session_id fps driver_ids).outcome =
        ReplayOutcome.completed [] ∧
      replay_race [] sink = [WsMessage.complete] := by
  constructor
  · simp only [generate_replay_frames_run]
    rw [if_pos (by simp [List.isEmpty_iff, h])]
  · rfl

theorem empty_session_completes_witness :
    (generate_replay_frames_run [] 1 10 none).outcome =
        ReplayOutcome.completed [] ∧
      replay_race [] (fun _ => SendResult.ok) = [WsMessage.complete] :=
  empty_session_completes [] 1 10 none (fun _ => SendResult.ok) rfl

theorem streamLoop_all_ok (sink : ℕ → SendResult) :
    ∀ (fs : List ReplayFrameSchema) (i0 : ℕ),
      (∀ k, k < fs.length → sink (i0 + k) = SendResult.ok) →
      streamLoop sink i0 fs = fs.map WsMessage.frame ++ [WsMessage.complete] := by
  intro fs
  induction fs with
  | nil => intro i0 _; rfl
  | cons f fs ih =>
    intro i0 h
    have h0 : sink i0 = SendResult.ok := by simpa using h 0 (by simp)
    have htail : ∀ k, k < fs.length → sink (i0 + 1 + k) = SendResult.ok := by
      intro k hk
      rw [show i0 + 1 + k = i0 + (k + 1) by omega]
      exact h (k + 1) (by simpa using Nat.succ_lt_succ hk)
    simp [streamLoop, h0, ih (i0 + 1) htail]

theorem streamLoop_disconnect (sink : ℕ → SendResult) :
    ∀ (fs : List ReplayFrameSchema) (i0 j : ℕ),
      j < fs.length → (∀ k, k < j → sink (i0 + k) = SendResult.ok) →
      sink (i0 + j) = SendResult.disconnect →
      streamLoop sink i0 fs = (fs.take j).map WsMessage.frame := by
  intro fs
  induction fs with
  | nil => intro i0 j hj; simp at hj
  | cons f fs ih =>
    intro i0 j hj hok hd
    cases j with
    | zero =>
      simp only [Nat.add_zero] at hd
      simp [streamLoop, hd]
    | succ j =>
      have h0 : sink i0 = SendResult.ok := by simpa using hok 0 (Nat.succ_pos _)
      have htail : ∀ k, k < j → sink (i0 + 1 + k) = SendResult.ok := by
        intro k hk
        rw [show i0 + 1 + k = i0 + (k + 1) by omega]
        exact hok (k + 1) (by omega)
      have hd' : sink (i0 + 1 + j) = SendResult.disconnect := by
        rw [show i0 + 1 + j = i0 + (j + 1) by omega]
        exact hd
      simp [streamLoop, h0, ih (i0 + 1) j (by simpa using hj) htail hd']

theorem streamLoop_raise (sink : ℕ → SendResult) (m : String) :
    ∀ (fs : List ReplayFrameSchema) (i0 j : ℕ),
      j < fs.length → (∀ k, k < j → sink (i0 + k) = SendResult.ok) →
      sink (i0 + j) = SendResult.raiseExc m →
      streamLoop sink i0 fs =
        (fs.take j).map WsMessage.frame ++ [WsMessage.error m] := by
  intro fs
  induction fs with
  | nil => intro i0 j hj; simp at hj
  | cons f fs ih =>
    intro i0 j hj hok hd
    cases j with
    | zero =>
      simp only [Nat.add_zero] at hd
      simp [streamLoop, hd]
    | succ j =>
      have h0 : sink i0 = SendResult.ok := by simpa using hok 0 (Nat.succ_pos _)
      have htail : ∀ k, k < j → sink (i0 + 1 + k) = SendResult.ok := by
        intro k hk
        rw [show i0 + 1 + k = i0 + (k + 1) by omega]
        exact hok (k + 1) (by omega)
      have hd' : sink (i0 + 1 + j) = SendResult.raiseExc m := by
        rw [show i0 + 1 + j = i0 + (j + 1) by omega]
        exact hd
      simp [streamLoop, h0, ih (i0 + 1) j (by simpa using hj) htail hd']

theorem count_complete_map_frame (fs : List ReplayFrameSchema) :
    (fs.map WsMessage.frame).count WsMessage.complete = 0 := by
  apply List.count_eq_zero.mpr
  intro h
  obtain ⟨f, _, hf⟩ := List.mem_map.mp h
  exact WsMessage.noConfusion hf

/-- C7: the completion message is delivered exactly once when every frame
send succeeds (the loop exits normally); when a send raises
`WebSocketDisconnect` no further message is sent (no completion); when a
send raises any other exception an error message is sent instead of the
completion. -/
theorem completion_delivered_once (frames : List ReplayFrameSchema)
    (sink : ℕ → SendResult) (j : ℕ) (m : String) :
    ((∀ i, i < frames.length → sink i = SendResult.ok) →
        replay_race frames sink =
            frames.map WsMessage.frame ++ [WsMessage.complete] ∧
          (replay_race frames sink).count WsMessage.complete = 1) ∧
      (j < frames.length → (∀ i, i < j → sink i = SendResult.ok) →
        sink j = SendResult.disconnect →
        replay_race frames sink = (frames.take j).map WsMessage.frame ∧
          (replay_race frames sink).count WsMessage.complete = 0) ∧
      (j < frames.length → (∀ i, i < j → sink i = SendResult.ok) →
        sink j = SendResult.raiseExc m →
        replay_race frames sink =
            (frames.take j).map WsMessage.frame ++ [WsMessage.error m] ∧
          (replay_race frames sink).count WsMessage.complete = 0) := by
  refine ⟨fun hok => ?_, fun hj hok hd => ?_, fun hj hok hd => ?_⟩
  · have h := streamLoop_all_ok sink frames 0 (by simpa using hok)
    rw [replay_race, h]
    refine ⟨rfl, ?_⟩
    simp [List.count_append, count_complete_map_frame]
  · have h := streamLoop_disconnect sink frames 0 j hj (by simpa using hok)
      (by simpa using hd)
    rw [replay_race, h]
    exact ⟨rfl, count_complete_map_frame _⟩
  · have h := streamLoop_raise sink m frames 0 j hj (by simpa using hok)
      (by simpa using hd)
    rw [replay_race, h]
    refine ⟨rfl, ?_⟩
    rw [List.count_append, count_complete_map_frame]
    simp

theorem completion_delivered_once_witness :
    replay_race [build_replay_frame 0 [sampleA]] (fun _ => SendResult.ok) =
      [WsMessage.frame (build_replay_frame 0 [sampleA]), WsMessage.complete] := by
  have h := (completion_delivered_once [build_replay_frame 0 [sampleA]]
    (fun _ => SendResult.ok) 0 "").1 (fun i _ => rfl)
  simpa using h.1

/-- `driver_frames.get(k)`: lookup in the insertion-ordered dict model. -/
def dictFind? (d : List (Int × TelemetryFrame)) (k : Int) :
    Option TelemetryFrame :=
  (d.find? (fun p => p.1 == k)).map Prod.snd

theorem find?_key_map_replace (d : List (Int × TelemetryFrame)) (k k' : Int)
    (v : TelemetryFrame) :
    (d.map (fun p => if p.1 == k then (p.1, v) else p)).find?
        (fun q => q.1 == k')
      = (d.find? (fun q => q.1 == k')).map
          (fun p => if p.1 == k then (p.1, v) else p) := by
  rw [List.find?_map]
  have hcomp : ((fun q : Int × TelemetryFrame => q.1 == k') ∘ fun p =>
      if p.1 == k then (p.1, v) else p)
      = fun q : Int × TelemetryFrame => q.1 == k' := by
    funext q
    by_cases h : q.1 = k <;> simp [Function.comp, h]
  rw [hcomp]

theorem dictFind?_dictInsert (d : List (Int × TelemetryFrame)) (k k' : Int)
    (v : TelemetryFrame) :
    dictFind? (dictInsert d k v) k' =
      if k' = k then some v else dictFind? d k' := by
  unfold dictInsert dictFind?
  by_cases hc : (d.any fun p => p.1 == k) = true
  · rw [if_pos hc, find?_key_map_replace]
    by_cases hk : k' = k
    · subst hk
      obtain ⟨q, hq, hqk⟩ := List.any_eq_true.mp hc
      have hiss : (d.find? fun p => p.1 == k').isSome :=
        List.find?_isSome.mpr ⟨q, hq, hqk⟩
      obtain ⟨p, hp⟩ := Option.isSome_iff_exists.mp hiss
      have hp1 : p.1 = k' := by simpa using List.find?_some hp
      rw [hp, if_pos rfl]
      simp [hp1]
    · rw [if_neg hk]
      cases hf : d.find? fun q : Int × TelemetryFrame => q.1 == k' with
      | none => simp
      | some q =>
        have hq1 : q.1 = k' := by simpa using List.find?_some hf
        have hqk : ¬q.1 = k := by rw [hq1]; exact hk
        simp [hqk]
  · rw [if_neg hc]
    have hnone : (d.find? fun p : Int × TelemetryFrame => p.1 == k) = none := by
      apply List.find?_eq_none.mpr
      intro p hp hpk
      exact hc (List.any_eq_true.mpr ⟨p, hp, hpk⟩)
    rw [List.find?_append]
    by_cases hk : k' = k
    · subst hk
      rw [hnone]
      simp
    · cases hf : d.find? fun q : Int × TelemetryFrame => q.1 == k' with
      | none =>
        have hb : (k == k') = false := by
          simp
          exact fun h => hk h.symm
        simp [List.find?, hk, hb]
      | some q =>
        simp [hk]

theorem dictFind?_group (frames : List TelemetryFrame) (d : Int) :
    dictFind? (group_frames_by_driver frames) d =
      (frames.filter (fun s => s.driver_id == d)).getLast? := by
  induction frames using List.reverseRecOn with
  | nil => rfl
  | append_singleton fs f ih =>
    rw [group_frames_by_driver, List.foldl_append, List.foldl_cons,
      List.foldl_nil, ← group_frames_by_driver, dictFind?_dictInsert,
      List.filter_append]
    by_cases h : f.driver_id = d
    · rw [if_pos h.symm]
      have hf : [f].filter (fun s => s.driver_id == d) = [f] := by simp [h]
      rw [hf, List.getLast?_concat]
    · rw [if_neg (fun hd => h hd.symm)]
      have hf : [f].filter (fun s => s.driver_id == d) = [] := by simp [h]
      rw [hf, List.append_nil, ih]

/-- C3: for every window sample list and driver appearing in it, the
grouped dict entry — and hence the assembled frame's car position — comes
from the last sample for that driver in input (traversal) order, whatever
the samples' timestamps are. -/
theorem last_write_wins (t : ℚ) (frames : List TelemetryFrame) (d : Int)
    (h : ∃ s ∈ frames, s.driver_id = d) :
    ∃ f, (frames.filter (fun s => s.driver_id == d)).getLast? = some f ∧
      dictFind? (group_frames_by_driver frames) d = some f ∧
      carOf f ∈ (build_replay_frame t frames).cars := by
  have hne : frames.filter (fun s => s.driver_id == d) ≠ [] := by
    obtain ⟨s, hs, hd⟩ := h
    exact List.ne_nil_of_mem (List.mem_filter.mpr ⟨hs, by simp [hd]⟩)
  obtain ⟨f, hf⟩ := Option.isSome_iff_exists.mp
    (List.getLast?_isSome.mpr hne)
  refine ⟨f, hf, ?_, ?_⟩
  · rw [dictFind?_group, hf]
  · have hg : dictFind? (group_frames_by_driver frames) d = some f := by
      rw [dictFind?_group, hf]
    unfold dictFind? at hg
    cases hfind : (group_frames_by_driver frames).find?
        (fun p => p.1 == d) with
    | none => rw [hfind] at hg; simp at hg
    | some p =>
      rw [hfind] at hg
      have hp2 : p.2 = f := by simpa using hg
      have hpmem := List.mem_of_find?_eq_some hfind
      simp only [build_replay_frame]
      exact List.mem_map.mpr ⟨p, hpmem, by rw [hp2]⟩

theorem last_write_wins_witness :
    dictFind? (group_frames_by_driver [sampleB, sampleC]) 2 = some sampleC ∧
      carOf sampleC ∈ (build_replay_frame 0 [sampleB, sampleC]).cars := by
  obtain ⟨f, h1, h2, h3⟩ := last_write_wins 0 [sampleB, sampleC] 2
    ⟨sampleB, by simp, rfl⟩
  have hl : (([sampleB, sampleC]).filter
      (fun s => s.driver_id == 2)).getLast? = some sampleC := by decide
  rw [hl] at h1
  have hf : f = sampleC := (Option.some.inj h1).symm
  rw [hf] at h2 h3
  exact ⟨h2, h3⟩

theorem takeWhile_sorted_eq_filter (e : ℚ) (l : List TelemetryFrame)
    (hs : l.Sorted (fun a b => a.t_rel_sec ≤ b.t_rel_sec)) :
    l.takeWhile (fun f => f.t_rel_sec ≤ e) =
      l.filter (fun f => f.t_rel_sec ≤ e) := by
  induction l with
  | nil => rfl
  | cons a l ih =>
    rw [List.sorted_cons] at hs
    obtain ⟨ha, hl⟩ := hs
    by_cases h : a.t_rel_sec ≤ e
    · simp [List.takeWhile_cons, List.filter_cons, h, ih hl]
    · have hrest : l.filter (fun f => f.t_rel_sec ≤ e) = [] := by
        apply List.filter_eq_nil_iff.mpr
        intro f hf
        have := ha f hf
        simp only [decide_eq_true_eq]
        intro hfe
        exact h (le_trans this hfe)
      simp [List.takeWhile_cons, List.filter_cons, h, hrest]

theorem dropWhile_sorted_eq_filter (e : ℚ) (l : List TelemetryFrame)
    (hs : l.Sorted (fun a b => a.t_rel_sec ≤ b.t_rel_sec)) :
    l.dropWhile (fun f => f.t_rel_sec ≤ e) =
      l.filter (fun f => e < f.t_rel_sec) := by
  induction l with
  | nil => rfl
  | cons a l ih =>
    rw [List.sorted_cons] at hs
    obtain ⟨ha, hl⟩ := hs
    by_cases h : a.t_rel_sec ≤ e
    · simp [List.dropWhile_cons, List.filter_cons, h, not_lt.mpr h, ih hl]
    · push_neg at h
      have hrest : l.filter (fun f => e < f.t_rel_sec) = l := by
        apply List.filter_eq_self.mpr
        intro f hf
        simpa using lt_of_lt_of_le h (ha f hf)
      simp [List.dropWhile_cons, not_le.mpr h, List.filter_cons, h, hrest]

theorem collectWindow_sorted_fst (current_time window_end : ℚ)
    (l : List TelemetryFrame)
    (hs : l.Sorted (fun a b => a.t_rel_sec ≤ b.t_rel_sec)) :
    (collectWindow current_time window_end l).1 =
      l.filter (fun f => current_time ≤ f.t_rel_sec ∧
        f.t_rel_sec ≤ window_end) := by
  rw [collectWindow_eq]
  dsimp only
  rw [takeWhile_sorted_eq_filter _ _ hs, List.filter_filter]
  apply List.filter_congr
  intro f _
  by_cases h1 : current_time ≤ f.t_rel_sec <;>
    by_cases h2 : f.t_rel_sec ≤ window_end <;>
    simp [h1, h2]

theorem collectWindow_sorted_snd (current_time window_end : ℚ)
    (l : List TelemetryFrame)
    (hs : l.Sorted (fun a b => a.t_rel_sec ≤ b.t_rel_sec)) :
    (collectWindow current_time window_end l).2 =
      l.filter (fun f => window_end < f.t_rel_sec) := by
  rw [collectWindow_eq]
  dsimp only
  exact dropWhile_sorted_eq_filter _ _ hs

/-- C1 amended: for a time-sorted cursor suffix, the window collected at
`current_time` is exactly the samples of the CLOSED interval
`[current_time, current_time + time_step]` — the inner loop breaks only
when a sample's time strictly exceeds `current_time + time_step`, so a
sample landing exactly on the right endpoint is included in the current
window (and consumed, so it cannot reappear in a later window). -/
theorem window_samples_closed_interval (current_time time_step : ℚ)
    (l : List TelemetryFrame)
    (hs : l.Sorted (fun a b => a.t_rel_sec ≤ b.t_rel_sec)) :
    (collectWindow current_time (current_time + time_step) l).1 =
      l.filter (fun f => current_time ≤ f.t_rel_sec ∧
        f.t_rel_sec ≤ current_time + time_step) :=
  collectWindow_sorted_fst current_time (current_time + time_step) l hs

theorem window_samples_closed_interval_witness :
    (collectWindow 0 (0 + 1) [sampleA, sampleB]).1 =
      ([sampleA, sampleB]).filter (fun f => 0 ≤ f.t_rel_sec ∧
        f.t_rel_sec ≤ 0 + 1) :=
  window_samples_closed_interval 0 1 [sampleA, sampleB] (by decide)

/-- C1 counterexample: at the first streaming-loop iteration for the
sorted samples `[sampleA, sampleB]` with `fps = 1` (so `step = 1`,
`current_time = min_time = 0`), the window passed to the frame assembler
is `[sampleA, sampleB]`, although `sampleB.t_rel_sec = current_time +
step` — the sample sitting exactly on the right endpoint IS included, so
the window is not the half-open interval `[current_time, current_time +
step)` the claim states. -/
theorem window_includes_right_endpoint :
    (replayWindows 1 1 one_pos 0 [sampleA, sampleB]).head? =
        some (0, [sampleA, sampleB]) ∧
      sampleB ∈ (collectWindow 0 (0 + 1) [sampleA, sampleB]).1 ∧
      sampleB.t_rel_sec = 0 + 1 := by
  have hw : collectWindow 0 1 [sampleA, sampleB] = ([sampleA, sampleB], []) := by
    norm_num [collectWindow, sampleA, sampleB]
  have h01 : (0:ℚ) + 1 = 1 := by norm_num
  refine ⟨?_, ?_, ?_⟩
  · rw [replayWindows, dif_pos (by norm_num : (0:ℚ) ≤ 1)]
    simp [h01, hw]
  · rw [h01, hw]
    simp
  · norm_num [sampleB]

theorem replayLoop_length_le (max_time time_step : ℚ) (hstep : 0 < time_step)
    (current_time : ℚ) (l : List TelemetryFrame) :
    (replayLoop max_time time_step hstep current_time l).length ≤
      loopIterations max_time time_step current_time := by
  rw [replayLoop]
  by_cases h : current_time ≤ max_time
  · rw [dif_pos h]
    have ih := replayLoop_length_le max_time time_step hstep
      (current_time + time_step)
      (collectWindow current_time (current_time + time_step) l).2
    have hit := loopIterations_step max_time time_step current_time hstep h
    by_cases he :
        (collectWindow current_time (current_time + time_step) l).1.isEmpty <;>
      simp only [he, if_true, if_false, List.length_cons, Bool.false_eq_true,
        ite_false, ite_true] <;>
      omega
  · rw [dif_neg h]
    simp
termination_by loopIterations max_time time_step current_time
decreasing_by all_goals exact loopIterations_decreases _ _ _ hstep h

/-- C10: the streaming loop terminates — from any loop state, after the
finite number `loopIterations` of iterations (each adding the positive
`time_step` to `current_time`) the running time exceeds `max_time`, and
the generator emits at most that many frames. -/
theorem replay_loop_terminates (max_time time_step : ℚ) (hstep : 0 < time_step)
    (current_time : ℚ) (l : List TelemetryFrame) :
    max_time < current_time +
        (loopIterations max_time time_step current_time : ℚ) * time_step ∧
      (replayLoop max_time time_step hstep current_time l).length ≤
        loopIterations max_time time_step current_time := by
  refine ⟨?_, replayLoop_length_le max_time time_step hstep current_time l⟩
  unfold loopIterations
  by_cases h : current_time ≤ max_time
  · rw [if_pos h]
    have hnn : (0:ℚ) ≤ (max_time - current_time) / time_step :=
      div_nonneg (by linarith) hstep.le
    have hfl : (0:ℤ) ≤ ⌊(max_time - current_time) / time_step⌋ :=
      Int.floor_nonneg.mpr hnn
    have hlt := Int.lt_floor_add_one ((max_time - current_time) / time_step)
    rw [div_lt_iff₀ hstep] at hlt
    have hcast : (((⌊(max_time - current_time) / time_step⌋.toNat + 1 : ℕ)) : ℚ)
        = (⌊(max_time - current_time) / time_step⌋ : ℚ) + 1 := by
      have h6 : ((⌊(max_time - current_time) / time_step⌋.toNat : ℕ) : ℚ)
          = ((⌊(max_time - current_time) / time_step⌋ : ℤ) : ℚ) := by
        rw [← Int.cast_natCast, Int.toNat_of_nonneg hfl]
      rw [Nat.cast_add, Nat.cast_one, h6]
    rw [hcast]
    linarith
  · rw [if_neg h]
    push_neg at h
    simpa using h

theorem replay_loop_terminates_witness :
    (1:ℚ) < 0 + (loopIterations 1 1 0 : ℚ) * 1 ∧
      (replayLoop 1 1 one_pos 0 [sampleA, sampleB]).length ≤
        loopIterations 1 1 0 :=
  replay_loop_terminates 1 1 one_pos 0 [sampleA, sampleB]

theorem replayWindows_join_eq (max_time time_step : ℚ) (hstep : 0 < time_step)
    (current_time : ℚ) (l : List TelemetryFrame)
    (hs : l.Sorted (fun a b => a.t_rel_sec ≤ b.t_rel_sec))
    (hb : ∀ f ∈ l, current_time ≤ f.t_rel_sec ∧ f.t_rel_sec ≤ max_time) :
    ((replayWindows max_time time_step hstep current_time l).map Prod.snd).flatten
      = l := by
  rw [replayWindows]
  by_cases h : current_time ≤ max_time
  · rw [dif_pos h]
    have hcw := collectWindow_eq current_time (current_time + time_step) l
    have h1 : (collectWindow current_time (current_time + time_step) l).1 =
        l.takeWhile (fun f => f.t_rel_sec ≤ current_time + time_step) := by
      rw [hcw]
      apply List.filter_eq_self.mpr
      intro f hf
      have hfl : f ∈ l := (List.takeWhile_sublist _).subset hf
      simpa using (hb f hfl).1
    have h2 : (collectWindow current_time (current_time + time_step) l).2 =
        l.dropWhile (fun f => f.t_rel_sec ≤ current_time + time_step) := by
      rw [hcw]
    have hs' : ((collectWindow current_time (current_time + time_step) l).2).Sorted
        (fun a b => a.t_rel_sec ≤ b.t_rel_sec) := by
      rw [h2]
      exact List.Pairwise.sublist (List.dropWhile_sublist _) hs
    have hb' : ∀ f ∈ (collectWindow current_time (current_time + time_step) l).2,
        current_time + time_step ≤ f.t_rel_sec ∧ f.t_rel_sec ≤ max_time := by
      intro f hf
      rw [h2, dropWhile_sorted_eq_filter _ _ hs] at hf
      have hmem := List.mem_filter.mp hf
      exact ⟨le_of_lt (by simpa using hmem.2), (hb f hmem.1).2⟩
    simp only [List.map_cons, List.flatten_cons]
    rw [replayWindows_join_eq max_time time_step hstep (current_time + time_step)
      _ hs' hb']
    rw [h1, h2, List.takeWhile_append_dropWhile]
  · rw [dif_neg h]
    cases l with
    | nil => rfl
    | cons f fs =>
      exfalso
      have hf := hb f (by simp)
      exact h (le_trans hf.1 hf.2)
termination_by loopIterations max_time time_step current_time
decreasing_by all_goals exact loopIterations_decreases _ _ _ hstep h

/-- C5: for a time-sorted sample list whose times lie in
`[current_time, max_time]`, the concatenation of the windows of all loop
iterations, in order, is the sample list itself — every sample is passed
to the frame assembler in exactly one window (the forward-only cursor
never revisits a consumed sample, so none is duplicated, and with sorted
input none is dropped). -/
theorem every_sample_in_exactly_one_window (max_time time_step : ℚ)
    (hstep : 0 < time_step) (min_time : ℚ) (l : List TelemetryFrame)
    (hs : l.Sorted (fun a b => a.t_rel_sec ≤ b.t_rel_sec))
    (hb : ∀ f ∈ l, min_time ≤ f.t_rel_sec ∧ f.t_rel_sec ≤ max_time) :
    ((replayWindows max_time time_step hstep min_time l).map Prod.snd).flatten
      = l :=
  replayWindows_join_eq max_time time_step hstep min_time l hs hb

theorem every_sample_in_exactly_one_window_witness :
    ((replayWindows 1 1 one_pos 0 [sampleA, sampleB]).map Prod.snd).flatten
      = [sampleA, sampleB] :=
  every_sample_in_exactly_one_window 1 1 one_pos 0 [sampleA, sampleB]
    (by decide) (by decide)

/-- Grid view of the loop trace: the window the cursor hands to iteration
`k` when every remaining sample's time strictly exceeds the current time —
iteration `k` runs at `c + k * s` and collects the samples of
`(c + k * s, c + k * s + s]`. -/
def gridWindows (c s : ℚ) (l : List TelemetryFrame) (n : ℕ) :
    List (ℚ × List TelemetryFrame) :=
  (List.range n).map (fun k : ℕ => (c + (k : ℚ) * s,
    l.filter (fun f => c + (k : ℚ) * s < f.t_rel_sec ∧
      f.t_rel_sec ≤ c + (k : ℚ) * s + s)))

theorem gridWindows_succ (c s : ℚ) (hstep : 0 < s)
    (l rest : List TelemetryFrame)
    (hrest : rest = l.filter (fun f => c + s < f.t_rel_sec)) (n : ℕ) :
    gridWindows c s l (n + 1) =
      (c, l.filter (fun f => c < f.t_rel_sec ∧ f.t_rel_sec ≤ c + s)) ::
        gridWindows (c + s) s rest n := by
  unfold gridWindows
  rw [List.range_succ_eq_map, List.map_cons, List.map_map]
  congr 1
  · simp
  · apply List.map_congr_left
    intro k _
    simp only [Function.comp_apply]
    have harith : c + (((Nat.succ k : ℕ)) : ℚ) * s = c + s + (k : ℚ) * s := by
      push_cast
      ring
    rw [harith, hrest, List.filter_filter]
    congr 1
    apply List.filter_congr
    intro f _
    have hks : (0:ℚ) ≤ (k : ℚ) * s :=
      mul_nonneg (Nat.cast_nonneg k) hstep.le
    by_cases h1 : c + s + (k:ℚ) * s < f.t_rel_sec <;>
      by_cases h2 : f.t_rel_sec ≤ c + s + (k:ℚ) * s + s <;>
      simp [h1, h2] <;>
      intros <;>
      linarith

theorem replayWindows_strict_char (max_time time_step : ℚ)
    (hstep : 0 < time_step) (current_time : ℚ) (l : List TelemetryFrame)
    (hs : l.Sorted (fun a b => a.t_rel_sec ≤ b.t_rel_sec))
    (hb : ∀ f ∈ l, current_time < f.t_rel_sec) :
    replayWindows max_time time_step hstep current_time l =
      gridWindows current_time time_step l
        (loopIterations max_time time_step current_time) := by
  rw [replayWindows]
  by_cases h : current_time ≤ max_time
  · rw [dif_pos h]
    have hw1 : (collectWindow current_time (current_time + time_step) l).1 =
        l.filter (fun f => current_time < f.t_rel_sec ∧
          f.t_rel_sec ≤ current_time + time_step) := by
      rw [collectWindow_sorted_fst _ _ _ hs]
      apply List.filter_congr
      intro f hf
      have hstrict := hb f hf
      by_cases h2 : f.t_rel_sec ≤ current_time + time_step <;>
        simp [h2, hstrict, le_of_lt hstrict]
    have hw2 : (collectWindow current_time (current_time + time_step) l).2 =
        l.filter (fun f => current_time + time_step < f.t_rel_sec) :=
      collectWindow_sorted_snd _ _ _ hs
    have hsub : ((collectWindow current_time
        (current_time + time_step) l).2).Sublist l := by
      rw [collectWindow_eq]
      exact List.dropWhile_sublist _
    have hs' := List.Pairwise.sublist hsub hs
    have hb' : ∀ f ∈ (collectWindow current_time (current_time + time_step) l).2,
        current_time + time_step < f.t_rel_sec := by
      intro f hf
      rw [hw2] at hf
      simpa using (List.mem_filter.mp hf).2
    dsimp only
    rw [replayWindows_strict_char max_time time_step hstep
      (current_time + time_step) _ hs' hb']
    rw [loopIterations_step max_time time_step current_time hstep h]
    rw [gridWindows_succ current_time time_step hstep l _ hw2
      (loopIterations max_time time_step (current_time + time_step))]
    rw [hw1]
  · rw [dif_neg h]
    unfold loopIterations
    rw [if_neg h]
    rfl
termination_by loopIterations max_time time_step current_time
decreasing_by all_goals exact loopIterations_decreases _ _ _ hstep h

/-- The samples the cursor loop hands to grid iteration `k` when run from
`min_time` on a time-sorted list: the first iteration's window is
left-closed (`min_time ≤ t`), every later one is left-open — the previous
window consumed every sample up to and including its right endpoint. -/
def effWindow (min_time time_step : ℚ) (l : List TelemetryFrame) (k : ℕ) :
    List TelemetryFrame :=
  l.filter (fun f =>
    (if k = 0 then min_time ≤ f.t_rel_sec
      else min_time + (k : ℚ) * time_step < f.t_rel_sec) ∧
    f.t_rel_sec ≤ min_time + (k : ℚ) * time_step + time_step)

theorem replayWindows_char (max_time time_step : ℚ) (hstep : 0 < time_step)
    (min_time : ℚ) (l : List TelemetryFrame)
    (hs : l.Sorted (fun a b => a.t_rel_sec ≤ b.t_rel_sec)) :
    replayWindows max_time time_step hstep min_time l =
      (List.range (loopIterations max_time time_step min_time)).map
        (fun k : ℕ => (min_time + (k : ℚ) * time_step,
          effWindow min_time time_step l k)) := by
  rw [replayWindows]
  by_cases h : min_time ≤ max_time
  · rw [dif_pos h]
    dsimp only
    have hw1 := collectWindow_sorted_fst min_time (min_time + time_step) l hs
    have hw2 := collectWindow_sorted_snd min_time (min_time + time_step) l hs
    have hsub : ((collectWindow min_time (min_time + time_step) l).2).Sublist l := by
      rw [collectWindow_eq]
      exact List.dropWhile_sublist _
    have hs' := List.Pairwise.sublist hsub hs
    have hb' : ∀ f ∈ (collectWindow min_time (min_time + time_step) l).2,
        min_time + time_step < f.t_rel_sec := by
      intro f hf
      rw [hw2] at hf
      simpa using (List.mem_filter.mp hf).2
    rw [replayWindows_strict_char max_time time_step hstep
      (min_time + time_step) _ hs' hb']
    rw [loopIterations_step max_time time_step min_time hstep h]
    rw [List.range_succ_eq_map, List.map_cons, List.map_map]
    congr 1
    · rw [hw1]
      unfold effWindow
      norm_num
    · unfold gridWindows
      apply List.map_congr_left
      intro k _
      simp only [Function.comp_apply]
      unfold effWindow
      have hcast : min_time + ((Nat.succ k : ℕ) : ℚ) * time_step
          = min_time + time_step + (k : ℚ) * time_step := by
        push_cast
        ring
      rw [hcast]
      congr 1
      rw [hw2, List.filter_filter]
      apply List.filter_congr
      intro f _
      have hks : (0:ℚ) ≤ (k : ℚ) * time_step :=
        mul_nonneg (Nat.cast_nonneg k) hstep.le
      by_cases h1 : min_time + time_step + (k:ℚ) * time_step < f.t_rel_sec <;>
        by_cases h2 : f.t_rel_sec ≤
          min_time + time_step + (k:ℚ) * time_step + time_step <;>
        simp [h1, h2, Nat.succ_ne_zero] <;>
        intros <;>
        linarith
  · rw [dif_neg h]
    unfold loopIterations
    rw [if_neg h]
    rfl

theorem dictInsert_ne_nil (d : List (Int × TelemetryFrame)) (k : Int)
    (v : TelemetryFrame) : dictInsert d k v ≠ [] := by
  unfold dictInsert
  split
  · rename_i hc
    intro hmap
    rw [List.map_eq_nil_iff] at hmap
    subst hmap
    simp at hc
  · simp

theorem foldl_dictInsert_ne_nil (fs : List TelemetryFrame) :
    ∀ (d : List (Int × TelemetryFrame)), d ≠ [] →
      fs.foldl (fun acc f => dictInsert acc f.driver_id f) d ≠ [] := by
  induction fs with
  | nil => intro d hd; exact hd
  | cons f fs ih =>
    intro d _
    exact ih _ (dictInsert_ne_nil _ _ _)

theorem group_frames_by_driver_ne_nil (frames : List TelemetryFrame)
    (h : frames ≠ []) : group_frames_by_driver frames ≠ [] := by
  cases frames with
  | nil => exact absurd rfl h
  | cons f fs =>
    unfold group_frames_by_driver
    rw [List.foldl_cons]
    exact foldl_dictInsert_ne_nil fs _ (dictInsert_ne_nil _ _ _)

theorem build_replay_frame_cars_ne_nil (t : ℚ) (w : List TelemetryFrame)
    (h : w ≠ []) : (build_replay_frame t w).cars ≠ [] := by
  simp only [build_replay_frame]
  rw [Ne, List.map_eq_nil_iff]
  exact group_frames_by_driver_ne_nil w h

theorem build_replay_frame_t (t : ℚ) (w : List TelemetryFrame) :
    (build_replay_frame t w).t = t := rfl

/-- C4 amended: with a positive step and time-sorted samples, the emitted
frames are exactly those grid points `min_time + k*step` whose effective
window — left-closed at `k = 0`, left-open `(t_k, t_k + step]` afterwards,
because the previous window consumed every sample up to and including its
right endpoint — contains at least one sample; the emitted timestamps are
strictly increasing along the grid, and no emitted frame has an empty cars
list. -/
theorem emitted_frames_grid (max_time time_step : ℚ) (hstep : 0 < time_step)
    (min_time : ℚ) (l : List TelemetryFrame)
    (hs : l.Sorted (fun a b => a.t_rel_sec ≤ b.t_rel_sec)) :
    replayLoop max_time time_step hstep min_time l =
      (List.range (loopIterations max_time time_step min_time)).filterMap
        (fun k : ℕ =>
          if (effWindow min_time time_step l k).isEmpty then none
          else some (build_replay_frame (min_time + (k : ℚ) * time_step)
            (effWindow min_time time_step l k))) ∧
      ((replayLoop max_time time_step hstep min_time l).map
        ReplayFrameSchema.t).Pairwise (· < ·) ∧
      ∀ fr ∈ replayLoop max_time time_step hstep min_time l, fr.cars ≠ [] := by
  have h1 : replayLoop max_time time_step hstep min_time l =
      (List.range (loopIterations max_time time_step min_time)).filterMap
        (fun k : ℕ =>
          if (effWindow min_time time_step l k).isEmpty then none
          else some (build_replay_frame (min_time + (k : ℚ) * time_step)
            (effWindow min_time time_step l k))) := by
    rw [replayLoop_eq_filterMap,
      replayWindows_char max_time time_step hstep min_time l hs,
      List.filterMap_map]
    rfl
  refine ⟨h1, ?_, ?_⟩
  · rw [h1, List.map_filterMap, List.pairwise_filterMap]
    have hr := List.pairwise_lt_range
      (loopIterations max_time time_step min_time)
    apply List.Pairwise.imp ?_ hr
    intro a b hab x hx y hy
    by_cases ha : (effWindow min_time time_step l a).isEmpty
    · rw [if_pos ha] at hx
      simp at hx
    by_cases hb2 : (effWindow min_time time_step l b).isEmpty
    · rw [if_pos hb2] at hy
      simp at hy
    rw [if_neg ha] at hx
    rw [if_neg hb2] at hy
    simp [build_replay_frame_t] at hx hy
    subst hx
    subst hy
    have hcast : ((a : ℚ)) < (b : ℚ) := by exact_mod_cast hab
    have := mul_lt_mul_of_pos_right hcast hstep
    linarith
  · intro fr hfr
    rw [h1] at hfr
    obtain ⟨k, _, hsome⟩ := List.mem_filterMap.mp hfr
    by_cases hke : (effWindow min_time time_step l k).isEmpty
    · rw [if_pos hke] at hsome
      exact absurd hsome (by simp)
    · rw [if_neg hke] at hsome
      have hfr' := Option.some.inj hsome
      rw [← hfr']
      apply build_replay_frame_cars_ne_nil
      intro hnil
      exact hke (by rw [hnil]; rfl)

theorem emitted_frames_grid_witness :
    replayLoop 1 1 one_pos 0 [sampleA, sampleB] =
      (List.range (loopIterations 1 1 0)).filterMap
        (fun k : ℕ =>
          if (effWindow 0 1 [sampleA, sampleB] k).isEmpty then none
          else some (build_replay_frame (0 + (k : ℚ) * 1)
            (effWindow 0 1 [sampleA, sampleB] k))) ∧
      ((replayLoop 1 1 one_pos 0 [sampleA, sampleB]).map
        ReplayFrameSchema.t).Pairwise (· < ·) ∧
      ∀ fr ∈ replayLoop 1 1 one_pos 0 [sampleA, sampleB], fr.cars ≠ [] :=
  emitted_frames_grid 1 1 one_pos 0 [sampleA, sampleB] (by decide)

/-- The timestamp sequence predicted by the spec's half-open reading of
the windows.  Comparison definition following the spec's words, not the
code: a frame is expected at each grid point `min_time + k*step` whose
half-open window `[t, t + step)` contains at least one sample. -/
def specHalfOpenTimestamps (min_time max_time time_step : ℚ)
    (l : List TelemetryFrame) : List ℚ :=
  (List.range (loopIterations max_time time_step min_time)).filterMap
    (fun k : ℕ =>
      if l.any (fun f => min_time + (k : ℚ) * time_step ≤ f.t_rel_sec ∧
          f.t_rel_sec < min_time + (k : ℚ) * time_step + time_step) then
        some (min_time + (k : ℚ) * time_step)
      else none)

/-- C4 counterexample: for the two samples at times `0` and `1` with
`fps = 1` (`step = 1`, `min_time = 0`, `max_time = 1`), the code emits a
single frame at `t = 0` — the sample at `t = 1` is consumed by the closed
window of iteration 0 — while under the spec's half-open windows the grid
point `1` also has a nonempty window `[1, 2)`, so the claimed timestamp
sequence would be `[0, 1]`.  The emitted sequence is therefore not the
subsequence of grid points with nonempty half-open windows. -/
theorem frame_grid_mismatch_half_open :
    (replayLoop 1 1 one_pos 0 [sampleA, sampleB]).map ReplayFrameSchema.t
        = [0] ∧
      specHalfOpenTimestamps 0 1 1 [sampleA, sampleB] = [0, 1] ∧
      ¬((replayLoop 1 1 one_pos 0 [sampleA, sampleB]).map ReplayFrameSchema.t
        = specHalfOpenTimestamps 0 1 1 [sampleA, sampleB]) := by
  have e1 : collectWindow 0 1 [sampleA, sampleB] =
      ([sampleA, sampleB], []) := by
    norm_num [collectWindow, sampleA, sampleB]
  have hN : loopIterations 1 1 0 = 2 := by
    norm_num [loopIterations]
  have L2 : replayLoop 1 1 one_pos (1 + 1) [] = [] := by
    rw [replayLoop, dif_neg (by norm_num : ¬((1:ℚ) + 1 ≤ 1))]
  have L1 : replayLoop 1 1 one_pos 1 [] = [] := by
    rw [replayLoop, dif_pos (by norm_num : (1:ℚ) ≤ 1)]
    simp [collectWindow, L2]
  have hL : replayLoop 1 1 one_pos 0 [sampleA, sampleB] =
      [build_replay_frame 0 [sampleA, sampleB]] := by
    rw [replayLoop, dif_pos (by norm_num : (0:ℚ) ≤ 1)]
    simp [e1, L1]
  have hmap : (replayLoop 1 1 one_pos 0 [sampleA, sampleB]).map
      ReplayFrameSchema.t = [0] := by
    rw [hL]
    simp [build_replay_frame_t]
  have hspec : specHalfOpenTimestamps 0 1 1 [sampleA, sampleB] = [0, 1] := by
    unfold specHalfOpenTimestamps
    rw [hN]
    norm_num [List.range_succ, List.filterMap_cons, sampleA, sampleB]
  refine ⟨hmap, hspec, ?_⟩
  rw [hmap, hspec]
  simp

end F1Replay
